import Mathlib

/-!
Verification of the follow-up ranking logic and related operations of the
lead-management page (`src/app/page.tsx`).

Modelling conventions:
* A JavaScript `Date` value is its millisecond timestamp, `Option Int`;
  `none` stands for an `Invalid Date` (whose `getTime()` is `NaN`).
  Arithmetic on `NaN` is modelled by `none`-propagation, and a comparator
  result of `NaN` is treated as `+0` by `Array.prototype.sort`
  (ECMAScript `SortCompare`), i.e. as `Ordering.eq`.
* The local timezone is fixed to UTC, so truncating a date to its calendar
  day (`new Date(d.getFullYear(), d.getMonth(), d.getDate())`) is flooring
  the timestamp to a multiple of 86400000 ms.
* `Array.prototype.sort` is stable; it is modelled by the stable
  `List.insertionSort` with the relation `comparator a b ≠ .gt`
  ("a need not come after b").
-/

/-! ### Data model and the follow-up sort -/

/-- Milliseconds in one calendar day. -/
def dayMs : Int := 86400000

/-- Timestamp of `new Date(d.getFullYear(), d.getMonth(), d.getDate())`:
the input floored to the start of its calendar day. -/
def dayStart (t : Int) : Int := dayMs * (Int.fdiv t dayMs)

/-- NaN-propagating subtraction of two `getTime()` values. -/
def jsSub : Option Int → Option Int → Option Int
  | some a, some b => some (a - b)
  | _, _ => none

/-- How `Array.prototype.sort` consumes a numeric comparator result:
negative means "a first", positive means "b first", zero or NaN means
"keep the relative order". -/
def toOrd : Option Int → Ordering
  | none => Ordering.eq
  | some v => if v < 0 then Ordering.lt else if 0 < v then Ordering.gt else Ordering.eq

/-- A follow-up record as used by the sort in `fetchFollowUps`.
`follow_up_date` is the result of `new Date(a.follow_up_date)`:
`none` when the stored string does not parse. -/
structure FollowUp where
  id : Nat
  lead_id : Nat
  follow_up_date : Option Int
  remarks : String
  completed : Bool
deriving DecidableEq, Repr

/-- Test `dateOnly.getTime() === todayStart.getTime()` for a possibly
invalid date (`NaN === x` is false). -/
def isTodayD (todayStart : Int) : Option Int → Bool
  | none => false
  | some t => dayStart t == todayStart

/-- Test `dateOnly > todayStart` for a possibly invalid date
(`NaN > x` is false). -/
def isFutureD (todayStart : Int) : Option Int → Bool
  | none => false
  | some t => todayStart < dayStart t

/-- The comparator of `sortedFollowUps` in `fetchFollowUps`
(page.tsx lines 362-400), translated branch for branch. -/
def followUpCmp (now : Int) (a b : FollowUp) : Ordering :=
  let dateA := a.follow_up_date
  let dateB := b.follow_up_date
  let todayStart := dayStart now
  let isAToday := isTodayD todayStart dateA
  let isBToday := isTodayD todayStart dateB
  if isAToday && isBToday then toOrd (jsSub dateA dateB)
  else if isAToday && !isBToday then Ordering.lt
  else if !isAToday && isBToday then Ordering.gt
  else
    let isAFuture := isFutureD todayStart dateA
    let isBFuture := isFutureD todayStart dateB
    if isAFuture && isBFuture then toOrd (jsSub dateA dateB)
    else if isAFuture && !isBFuture then Ordering.lt
    else if !isAFuture && isBFuture then Ordering.gt
    else toOrd (jsSub dateB dateA)

/-- The per-lead comparator used to sort `leadFollowUps` in `fetchFollowUps`
(page.tsx lines 420-453), translated branch for branch.  Note its branch
order differs from `followUpCmp`: the both-today case falls through to the
final `dateB - dateA` return. -/
def leadFollowUpCmp (now : Int) (a b : FollowUp) : Ordering :=
  let dateA := a.follow_up_date
  let dateB := b.follow_up_date
  let todayStart := dayStart now
  let isAToday := isTodayD todayStart dateA
  let isBToday := isTodayD todayStart dateB
  if isAToday && !isBToday then Ordering.lt
  else if !isAToday && isBToday then Ordering.gt
  else
    let isAFuture := isFutureD todayStart dateA
    let isBFuture := isFutureD todayStart dateB
    if isAFuture && !isBFuture then Ordering.lt
    else if !isAFuture && isBFuture then Ordering.gt
    else if isAFuture && isBFuture then toOrd (jsSub dateA dateB)
    else toOrd (jsSub dateB dateA)

/-- The sort `followUpsData.sort(comparator)`: the stable JS sort with the
main comparator. -/
def rank (now : Int) (l : List FollowUp) : List FollowUp :=
  List.insertionSort (fun a b => followUpCmp now a b ≠ Ordering.gt) l

/-- The per-lead `followUpsData.filter(...).sort(comparator)` sort. -/
def rankLead (now : Int) (l : List FollowUp) : List FollowUp :=
  List.insertionSort (fun a b => leadFollowUpCmp now a b ≠ Ordering.gt) l

/-- The classification bucket of a follow-up, implicit in the comparator's
`isToday` / `isFuture` tests. -/
inductive Bucket where
  | today
  | upcoming
  | past
deriving DecidableEq, Repr

/-- Classify a record exactly as the comparator's predicates do: today if
its truncated date equals the current day, upcoming if beyond it, past
otherwise (including unparseable dates). -/
def classify (now : Int) (f : FollowUp) : Bucket :=
  if isTodayD (dayStart now) f.follow_up_date then Bucket.today
  else if isFutureD (dayStart now) f.follow_up_date then Bucket.upcoming
  else Bucket.past

/-- Priority index of a bucket: today before upcoming before past. -/
def brank : Bucket → Nat
  | Bucket.today => 0
  | Bucket.upcoming => 1
  | Bucket.past => 2

/-- Adjacent-pairs predicate: each element is related to its successor. -/
def ChainedList {α : Type} (r : α → α → Prop) : List α → Prop
  | [] => True
  | b :: t => List.Chain r b t

/-- Millisecond timestamp of a record, 0 for an invalid date; only used
for records with a parsed date. -/
def msOf (f : FollowUp) : Int := f.follow_up_date.getD 0

/-- Signed in-bucket sort value: ascending timestamp for today and
upcoming records, descending (negated) timestamp for past records. -/
def sortVal (now : Int) (f : FollowUp) : Int :=
  if classify now f = Bucket.past then -(msOf f) else msOf f

/-- Total preorder that the comparator realises on records with valid
dates: first by bucket priority, then by the signed in-bucket value. -/
def keyLE (now : Int) (a b : FollowUp) : Prop :=
  brank (classify now a) < brank (classify now b) ∨
    (brank (classify now a) = brank (classify now b) ∧ sortVal now a ≤ sortVal now b)

/-- Pairwise form of "Upcoming records appear soonest-first among
themselves". -/
def upcomingAscending (now : Int) (l : List FollowUp) : Prop :=
  l.Pairwise fun a b =>
    classify now a = Bucket.upcoming → classify now b = Bucket.upcoming →
      msOf a ≤ msOf b

/-- Pairwise form of "Past records appear most-recent-first among
themselves". -/
def pastDescending (now : Int) (l : List FollowUp) : Prop :=
  l.Pairwise fun a b =>
    classify now a = Bucket.past → classify now b = Bucket.past →
      msOf b ≤ msOf a

instance (now : Int) (l : List FollowUp) : Decidable (upcomingAscending now l) :=
  List.instDecidablePairwise l

instance (now : Int) (l : List FollowUp) : Decidable (pastDescending now l) :=
  List.instDecidablePairwise l

/-! ### Concrete records for the scenarios
Timestamps: 2024-06-08, 2024-06-09, 2024-06-10, 2024-06-12 at 00:00 UTC
are 1717804800000, 1717891200000, 1717977600000, 1718150400000;
2024-06-10 09:00 and 14:00 UTC are 1718010000000 and 1718028000000. -/

def todayNineAm : FollowUp := ⟨21, 5, some 1718010000000, "9am call", false⟩

def todayTwoPm : FollowUp := ⟨22, 5, some 1718028000000, "2pm call", false⟩

def invalidRec : FollowUp := ⟨41, 9, none, "call back", false⟩

def todayRecA : FollowUp := ⟨11, 3, some 1718010000000, "morning call", false⟩

def todayRecB : FollowUp := ⟨12, 4, some 1718010000000, "different fields", true⟩

def pastOlder : FollowUp := ⟨31, 6, some 1717804800000, "June 8", false⟩

def pastNewer : FollowUp := ⟨32, 6, some 1717891200000, "June 9", false⟩

def unparseableRec : FollowUp := ⟨33, 6, none, "no date", false⟩

def scenarioJune12 : FollowUp := ⟨1, 2, some 1718150400000, "upcoming", false⟩

def scenarioJune10 : FollowUp := ⟨2, 2, some 1717977600000, "today", false⟩

def scenarioJune08 : FollowUp := ⟨3, 2, some 1717804800000, "older past", false⟩

def scenarioJune09 : FollowUp := ⟨4, 2, some 1717891200000, "newer past", false⟩

/-! ### CSV import (`handleFileImport`) -/

/-- Model of JS `toLowerCase` as a per-character map (ASCII suffices for
the strings involved). -/
def jsToLower (s : String) : String := String.mk (s.data.map Char.toLower)

/-- JS `x || dflt` for an optional string: `undefined`, `null` and the
empty string are all falsy. -/
def jsOrString : Option String → String → String
  | none, d => d
  | some s, d => if s = "" then d else s

/-- A lead record constructed by the CSV importer `handleFileImport`. -/
structure ImportedLead where
  full_name : String
  email : String
  phone : String
  company : String
  job_title : String
  location : String
  source : String
  status : String
  is_active : Bool
  industry : String
  user_id : String
deriving DecidableEq, Repr

/-- Model of one iteration of the row loop of `handleFileImport`
(page.tsx lines 1056-1102): build a lead from the split `values` of a CSV
line when at least two values are present, else skip the row. -/
def parseCsvLead (values : List String) (userId : Option String) :
    Option ImportedLead :=
  if 2 ≤ values.length then
    some
      { full_name := jsOrString (values[0]?) ""
        email := jsOrString (values[1]?) ""
        phone := jsOrString (values[2]?) ""
        company := jsOrString (values[3]?) ""
        job_title := jsOrString (values[4]?) ""
        location := jsOrString (values[5]?) ""
        source := jsOrString (values[6]?) "Other"
        status := jsOrString ((values[7]?).map jsToLower) "new"
        is_active := (match values[8]? with
          | some s => jsToLower s == "active"
          | none => false) || true
        industry := jsOrString (values[9]?) ""
        user_id := jsOrString (userId) "" }
  else none

def importRow : List String :=
  ["Jane Doe", "jane@example.com", "", "", "", "", "", "open", "inactive"]

def importedJane : ImportedLead :=
  ⟨"Jane Doe", "jane@example.com", "", "", "", "", "Other", "open", true, "", "u1"⟩

/-! ### Follow-up form submission (`addOrUpdateFollowUp`) -/

/-- Outcome reported by `addOrUpdateFollowUp`: which toast is shown and
which backend call, if any, ran. -/
inductive SubmitOutcome where
  | signInError
  | pastDateError
  | updated
  | inserted
deriving DecidableEq, Repr

/-- The follow-up form state relevant to submission; `follow_up_date` is
the parse result of the form's date string. -/
structure FollowUpForm where
  lead_id : Nat
  follow_up_date : Option Int
  remarks : String
deriving DecidableEq, Repr

/-- A stored follow-up row in the backend table. -/
structure FollowUpRow where
  id : Nat
  user_id : Nat
  lead_id : Nat
  follow_up_date : Option Int
  remarks : String
  completed : Bool
deriving DecidableEq, Repr

/-- JS `<` on two dates: any comparison involving an invalid date is
false. -/
def jsDateLt : Option Int → Option Int → Bool
  | some a, some b => a < b
  | _, _ => false

/-- Model of `addOrUpdateFollowUp` (page.tsx lines 644-685).
The guard compares `new Date(form.follow_up_date)` against
`new Date(getTodayDate())`; `getTodayDate()` is the current UTC day
string, which parses back to the day's midnight `dayStart now`.  The
backend update and insert calls are modelled as succeeding; `newId`
stands for the backend-generated row id. -/
def addOrUpdateFollowUp (now : Int) (user : Option Nat) (editing : Option Nat)
    (form : FollowUpForm) (newId : Nat) (st : List FollowUpRow) :
    List FollowUpRow × SubmitOutcome :=
  match user with
  | none => (st, SubmitOutcome.signInError)
  | some uid =>
    if jsDateLt form.follow_up_date (some (dayStart now)) then
      (st, SubmitOutcome.pastDateError)
    else
      match editing with
      | some eid =>
        (st.map fun row =>
          if row.id = eid ∧ row.user_id = uid then
            { row with lead_id := form.lead_id,
                       follow_up_date := form.follow_up_date,
                       remarks := form.remarks }
          else row,
         SubmitOutcome.updated)
      | none =>
        (st ++ [{ id := newId, user_id := uid, lead_id := form.lead_id,
                  follow_up_date := form.follow_up_date,
                  remarks := form.remarks, completed := false }],
         SubmitOutcome.inserted)

def pastForm : FollowUpForm := ⟨7, some 1717891200000, "too late"⟩

def todayForm : FollowUpForm := ⟨7, some 1717977600000, "on time"⟩

/-! ### CSV / Excel export -/

/-- A lead row as consumed by the export functions. -/
structure Lead where
  full_name : String
  email : String
  phone : Option String
  company : Option String
  job_title : Option String
  location : Option String
  source : Option String
  status : String
  is_active : Bool
  industry : Option String
  created_at : Int
deriving DecidableEq, Repr

/-- Translation of `formatStatusDisplay` (page.tsx lines 569-576). -/
def formatStatusDisplay (status : String) : String :=
  if status = "new" then "New"
  else if status = "open" then "Open"
  else if status = "important" then "Important"
  else status

/-- The string content assembled by `exportToCSV` (page.tsx lines
996-1024): header line, then one quoted comma-joined row per lead, all
newline-joined.  `fmtDate` stands for `toLocaleDateString`, which is
locale-dependent but used identically by both export functions. -/
def exportToCSVContent (fmtDate : Int → String) (leads : List Lead) : String :=
  let headers := ["Full Name", "Email", "Phone", "Company", "Job Title",
    "Location", "Source", "Status", "Is Active", "Industry", "Created At"]
  let csvData := leads.map fun lead =>
    [lead.full_name, lead.email, jsOrString (lead.phone) "",
     jsOrString (lead.company) "", jsOrString (lead.job_title) "",
     jsOrString (lead.location) "", jsOrString (lead.source) "",
     formatStatusDisplay lead.status,
     if lead.is_active then "Active" else "Inactive",
     jsOrString (lead.industry) "", fmtDate lead.created_at]
  String.intercalate ("\n")
    (String.intercalate (",") headers ::
      csvData.map fun row =>
        String.intercalate (",") (row.map fun cell => "\"" ++ cell ++ "\""))

/-- The string content assembled by `exportToExcel` (page.tsx lines
1026-1054): identical construction, with the byte-order mark prepended. -/
def exportToExcelContent (fmtDate : Int → String) (leads : List Lead) : String :=
  let headers := ["Full Name", "Email", "Phone", "Company", "Job Title",
    "Location", "Source", "Status", "Is Active", "Industry", "Created At"]
  let csvData := leads.map fun lead =>
    [lead.full_name, lead.email, jsOrString (lead.phone) "",
     jsOrString (lead.company) "", jsOrString (lead.job_title) "",
     jsOrString (lead.location) "", jsOrString (lead.source) "",
     formatStatusDisplay lead.status,
     if lead.is_active then "Active" else "Inactive",
     jsOrString (lead.industry) "", fmtDate lead.created_at]
  "\uFEFF" ++ String.intercalate ("\n")
    (String.intercalate (",") headers ::
      csvData.map fun row =>
        String.intercalate (",") (row.map fun cell => "\"" ++ cell ++ "\""))

/-! ### Generic facts about the stable sort model -/

section SortLemmas

variable {α : Type} (r : α → α → Prop) [DecidableRel r]

theorem chain_orderedInsert (tot : ∀ a b, r a b ∨ r b a) (x : α) :
    ∀ (l : List α) (b : α), List.Chain r b l → r b x →
      List.Chain r b (List.orderedInsert r x l)
  | [], _, _, hbx => List.Chain.cons hbx List.Chain.nil
  | c :: l, b, h, hbx => by
    rcases List.chain_cons.mp h with ⟨hbc, hc⟩
    by_cases hxc : r x c
    · rw [List.orderedInsert, if_pos hxc]
      exact List.Chain.cons hbx (List.Chain.cons hxc hc)
    · rw [List.orderedInsert, if_neg hxc]
      exact List.Chain.cons hbc
        (chain_orderedInsert tot x l c hc ((tot x c).resolve_left hxc))

theorem chained_orderedInsert (tot : ∀ a b, r a b ∨ r b a) (x : α) :
    ∀ (l : List α), ChainedList r l → ChainedList r (List.orderedInsert r x l)
  | [], _ => List.Chain.nil
  | b :: l, h => by
    by_cases hxb : r x b
    · rw [List.orderedInsert, if_pos hxb]
      exact List.Chain.cons hxb h
    · rw [List.orderedInsert, if_neg hxb]
      exact chain_orderedInsert r tot x l b h ((tot x b).resolve_left hxb)

theorem chained_insertionSort (tot : ∀ a b, r a b ∨ r b a) :
    ∀ l : List α, ChainedList r (List.insertionSort r l)
  | [] => trivial
  | b :: l => by
    rw [List.insertionSort]
    exact chained_orderedInsert r tot b _ (chained_insertionSort tot l)

theorem insertionSort_eq_of_chained :
    ∀ l : List α, ChainedList r l → List.insertionSort r l = l
  | [], _ => rfl
  | b :: l, h => by
    have hl : ChainedList r l := by
      cases l with
      | nil => trivial
      | cons c t => exact (List.chain_cons.mp h).2
    rw [List.insertionSort, insertionSort_eq_of_chained l hl]
    cases l with
    | nil => rfl
    | cons c t => rw [List.orderedInsert, if_pos (List.chain_cons.mp h).1]

theorem sorted_orderedInsert_of_forall {s : α → α → Prop} (trs : Transitive s) (x : α) :
    ∀ l : List α, (∀ b ∈ l, r x b → s x b) → (∀ b ∈ l, ¬ r x b → s b x) →
      l.Sorted s → (List.orderedInsert r x l).Sorted s
  | [], _, _, _ => List.sorted_singleton x
  | b :: l, h1, h2, hs => by
    rcases List.sorted_cons.mp hs with ⟨hb, hl⟩
    by_cases hxb : r x b
    · rw [List.orderedInsert, if_pos hxb]
      refine List.sorted_cons.mpr ⟨?_, hs⟩
      intro y hy
      rcases List.mem_cons.mp hy with hyb | hy
      · rw [hyb]
        exact h1 b (List.mem_cons_self b l) hxb
      · exact trs (h1 b (List.mem_cons_self b l) hxb) (hb y hy)
    · rw [List.orderedInsert, if_neg hxb]
      refine List.sorted_cons.mpr ⟨?_, ?_⟩
      · intro y hy
        rcases (List.mem_orderedInsert r).mp hy with hyx | hy
        · rw [hyx]
          exact h2 b (List.mem_cons_self b l) hxb
        · exact hb y hy
      · refine sorted_orderedInsert_of_forall trs x l ?_ ?_ hl
        · intro c hc hxc; exact h1 c (List.mem_cons_of_mem b hc) hxc
        · intro c hc hxc; exact h2 c (List.mem_cons_of_mem b hc) hxc

theorem sorted_insertionSort_of_forall {s : α → α → Prop} (trs : Transitive s) :
    ∀ l : List α, (∀ a ∈ l, ∀ b ∈ l, (r a b → s a b) ∧ (¬ r a b → s b a)) →
      (List.insertionSort r l).Sorted s
  | [], _ => List.sorted_nil
  | x :: l, h => by
    rw [List.insertionSort]
    have hmem : ∀ b ∈ List.insertionSort r l, b ∈ x :: l := fun b hb =>
      List.mem_cons_of_mem x ((List.perm_insertionSort r l).mem_iff.mp hb)
    refine sorted_orderedInsert_of_forall r trs x _ ?_ ?_
      (sorted_insertionSort_of_forall trs l ?_)
    · intro b hb hr; exact (h x (List.mem_cons_self x l) b (hmem b hb)).1 hr
    · intro b hb hr; exact (h x (List.mem_cons_self x l) b (hmem b hb)).2 hr
    · intro a ha b hb
      exact h a (List.mem_cons_of_mem x ha) b (List.mem_cons_of_mem x hb)

end SortLemmas

/-! ### Facts about the comparator -/

theorem toOrd_jsSub_swap (a b : Option Int) :
    toOrd (jsSub b a) = (toOrd (jsSub a b)).swap := by
  cases a <;> cases b <;> simp only [jsSub, toOrd, Ordering.swap]
  rename_i x y
  rcases lt_trichotomy x y with h | h | h <;>
    · split_ifs <;> first | rfl | omega

theorem followUpCmp_swap (now : Int) (a b : FollowUp) :
    followUpCmp now b a = (followUpCmp now a b).swap := by
  unfold followUpCmp
  cases hA : isTodayD (dayStart now) a.follow_up_date <;>
    cases hB : isTodayD (dayStart now) b.follow_up_date <;>
      cases hFA : isFutureD (dayStart now) a.follow_up_date <;>
        cases hFB : isFutureD (dayStart now) b.follow_up_date <;>
          simp [hA, hB, hFA, hFB] <;>
            first
              | rfl
              | exact toOrd_jsSub_swap _ _

theorem followUpCmp_total (now : Int) (a b : FollowUp) :
    followUpCmp now a b ≠ Ordering.gt ∨ followUpCmp now b a ≠ Ordering.gt := by
  rw [followUpCmp_swap now b a]
  cases followUpCmp now b a <;> decide

theorem dayStart_def (t : Int) : dayStart t = 86400000 * (t / 86400000) := by
  unfold dayStart dayMs
  rw [Int.fdiv_eq_ediv _ (by omega)]

theorem lt_dayStart_iff (t now : Int) : t < dayStart now ↔ dayStart t < dayStart now := by
  simp only [dayStart_def]
  omega

theorem toOrd_some_eq_gt (v : Int) : toOrd (some v) = Ordering.gt ↔ 0 < v := by
  show (if v < 0 then Ordering.lt else if 0 < v then Ordering.gt else Ordering.eq) =
      Ordering.gt ↔ 0 < v
  split_ifs with h1 h2 <;> simp <;> omega

theorem followUpCmp_eq_lt_of_brank_lt (now : Int) (a b : FollowUp)
    (h : brank (classify now a) < brank (classify now b)) :
    followUpCmp now a b = Ordering.lt := by
  unfold classify at h
  unfold followUpCmp
  cases hA : isTodayD (dayStart now) a.follow_up_date <;>
    cases hB : isTodayD (dayStart now) b.follow_up_date <;>
      cases hFA : isFutureD (dayStart now) a.follow_up_date <;>
        cases hFB : isFutureD (dayStart now) b.follow_up_date <;>
          simp [hA, hB, hFA, hFB, brank] at h ⊢

theorem followUpCmp_eq_gt_of_brank_lt (now : Int) (a b : FollowUp)
    (h : brank (classify now b) < brank (classify now a)) :
    followUpCmp now a b = Ordering.gt := by
  rw [followUpCmp_swap now b a, followUpCmp_eq_lt_of_brank_lt now b a h]
  rfl

theorem keyLE_trans (now : Int) : Transitive (keyLE now) := by
  intro x y z hxy hyz
  unfold keyLE at hxy hyz ⊢
  omega

theorem keyLE_total (now : Int) (a b : FollowUp) : keyLE now a b ∨ keyLE now b a := by
  unfold keyLE
  omega

theorem followUpCmp_gt_iff (now : Int) (a b : FollowUp) (ta tb : Int)
    (ha : a.follow_up_date = some ta) (hb : b.follow_up_date = some tb) :
    followUpCmp now a b = Ordering.gt ↔ ¬ keyLE now a b := by
  unfold followUpCmp keyLE sortVal msOf classify
  rw [ha, hb]
  simp only [isTodayD, isFutureD, jsSub, Option.getD_some]
  by_cases hA : dayStart ta = dayStart now <;>
    by_cases hB : dayStart tb = dayStart now <;>
      by_cases hFA : dayStart now < dayStart ta <;>
        by_cases hFB : dayStart now < dayStart tb <;>
          simp [hA, hB, hFA, hFB, toOrd_some_eq_gt, brank]

/-! ### The claims -/

/-- C1: for every input list and fixed current date the follow-up sort
returns a permutation of its input — the very same records, hence the
same multiset of ids — with no record dropped, duplicated, or mutated. -/
theorem rank_perm_of_input (now : Int) (l : List FollowUp) :
    (rank now l).Perm l ∧
      (((rank now l).map FollowUp.id : Multiset Nat) =
        ((l.map FollowUp.id : List Nat) : Multiset Nat)) := by
  refine ⟨List.perm_insertionSort _ l, ?_⟩
  exact Multiset.coe_eq_coe.mpr ((List.perm_insertionSort _ l).map FollowUp.id)

/-- C2: the sorted output is monotone in bucket priority at every pair of
positions — a Today record never appears after an Upcoming or Past
record, and an Upcoming record never appears after a Past record. -/
theorem rank_bucket_order (now : Int) (l : List FollowUp) :
    (rank now l).Pairwise
      (fun a b => brank (classify now a) ≤ brank (classify now b)) := by
  have trs : Transitive fun a b : FollowUp =>
      brank (classify now a) ≤ brank (classify now b) := by
    intro x y z hxy hyz
    omega
  refine sorted_insertionSort_of_forall _ trs l ?_
  intro a _ b _
  constructor
  · intro hr
    by_contra hlt
    exact hr (followUpCmp_eq_gt_of_brank_lt now a b (by omega))
  · intro hr
    have hgt : followUpCmp now a b = Ordering.gt := not_not.mp hr
    by_contra hlt
    rw [followUpCmp_eq_lt_of_brank_lt now a b (by omega)] at hgt
    exact Ordering.noConfusion hgt

/-- C3: the claim fails on the per-lead comparator.  Two follow-ups of the
same lead both dated today (09:00 and 14:00) are ordered descending by
timestamp by the per-lead sort — its both-today case falls through to the
final `dateB - dateA` branch — while the main comparator orders the same
pair ascending, as the spec and the comment in the per-lead comparator
("Both are past (but not today)") intend. -/
theorem leadSort_bothToday_descending :
    rankLead 1717977600000 [todayNineAm, todayTwoPm] = [todayTwoPm, todayNineAm] ∧
      rank 1717977600000 [todayNineAm, todayTwoPm] = [todayNineAm, todayTwoPm] := by
  constructor <;> decide

/-- C4 as stated is false: with an unparseable date between two past
records, the comparator ties the invalid record against both (NaN
comparator result), so the stable sort leaves the older past record
before the newer one, violating "Past records are ordered descending by
date". -/
theorem rank_past_descending_fails_with_invalid :
    ¬ pastDescending 1717977600000
      (rank 1717977600000 [pastOlder, unparseableRec, pastNewer]) := by
  decide

/-- C4 amended: when every record of the input has a parseable date, the
sorted output lists Upcoming records ascending by date and Past records
descending by date among themselves. -/
theorem rank_within_bucket_order (now : Int) (l : List FollowUp)
    (h : ∀ f ∈ l, f.follow_up_date.isSome) :
    upcomingAscending now (rank now l) ∧ pastDescending now (rank now l) := by
  have hkey : (rank now l).Pairwise (keyLE now) := by
    refine sorted_insertionSort_of_forall _ (keyLE_trans now) l ?_
    intro a ha b hb
    obtain ⟨ta, hta⟩ := Option.isSome_iff_exists.mp (h a ha)
    obtain ⟨tb, htb⟩ := Option.isSome_iff_exists.mp (h b hb)
    have hiff := followUpCmp_gt_iff now a b ta tb hta htb
    constructor
    · intro hr
      by_contra hk
      exact hr (hiff.mpr hk)
    · intro hr
      have hnk := hiff.mp (not_not.mp hr)
      exact (keyLE_total now a b).resolve_left hnk
  constructor
  · refine hkey.imp ?_
    intro a b hab hua hub
    rcases hab with hlt | ⟨_, hv⟩
    · rw [hua, hub] at hlt
      simp [brank] at hlt
    · unfold sortVal at hv
      rw [hua, hub] at hv
      simpa using hv
  · refine hkey.imp ?_
    intro a b hab hpa hpb
    rcases hab with hlt | ⟨_, hv⟩
    · rw [hpa, hpb] at hlt
      simp [brank] at hlt
    · unfold sortVal at hv
      rw [hpa, hpb] at hv
      simp at hv
      omega

/-- Witness for C4 at the spec scenario: now = 2024-06-10, input dates
June 12, June 10, June 8, June 9 rank as June 10 (Today), June 12
(Upcoming), June 9 (nearest Past), June 8 (older Past). -/
theorem rank_within_bucket_order_witness :
    (upcomingAscending 1717977600000 (rank 1717977600000
        [scenarioJune12, scenarioJune10, scenarioJune08, scenarioJune09]) ∧
      pastDescending 1717977600000 (rank 1717977600000
        [scenarioJune12, scenarioJune10, scenarioJune08, scenarioJune09])) ∧
      rank 1717977600000 [scenarioJune12, scenarioJune10, scenarioJune08, scenarioJune09] =
        [scenarioJune10, scenarioJune12, scenarioJune09, scenarioJune08] :=
  ⟨rank_within_bucket_order 1717977600000
      [scenarioJune12, scenarioJune10, scenarioJune08, scenarioJune09] (by decide),
    by decide⟩

/-- C5: a record whose date does not parse is classified Past — never
Today or Upcoming; the sort never throws (it is a total function) and
still returns a permutation of its input, and a single-record input with
an invalid date is returned unchanged. -/
theorem invalid_date_classified_past (now : Int) (f : FollowUp)
    (l : List FollowUp) (_hf : f ∈ l) (h : f.follow_up_date = none) :
    classify now f = Bucket.past ∧ (rank now l).Perm l ∧ rank now [f] = [f] := by
  refine ⟨?_, List.perm_insertionSort _ l, rfl⟩
  simp [classify, isTodayD, isFutureD, h]

/-- Witness for C5 at a concrete record with an unparseable date. -/
theorem invalid_date_classified_past_witness :
    classify 1717977600000 invalidRec = Bucket.past ∧
      (rank 1717977600000 [invalidRec]).Perm [invalidRec] ∧
        rank 1717977600000 [invalidRec] = [invalidRec] :=
  invalid_date_classified_past 1717977600000 invalidRec [invalidRec]
    (List.mem_singleton.mpr rfl) rfl

/-- C6: for a record with a valid date exactly one of the three
classifications holds, by integer trichotomy on the truncated day, and
the classification depends only on `follow_up_date` — any record with
the same date field, all other fields arbitrary, classifies
identically. -/
theorem classification_trichotomy (now : Int) (f : FollowUp) (t : Int)
    (h : f.follow_up_date = some t) :
    (classify now f = Bucket.today ↔ dayStart t = dayStart now) ∧
      (classify now f = Bucket.upcoming ↔ dayStart now < dayStart t) ∧
        (classify now f = Bucket.past ↔ dayStart t < dayStart now) ∧
          (∀ g : FollowUp, g.follow_up_date = f.follow_up_date →
            classify now g = classify now f) := by
  have hg : ∀ g : FollowUp, g.follow_up_date = f.follow_up_date →
      classify now g = classify now f := by
    intro g hgf
    unfold classify
    rw [hgf]
  refine ⟨?_, ?_, ?_, hg⟩ <;>
    · unfold classify
      rw [h]
      simp only [isTodayD, isFutureD]
      by_cases hT : dayStart t = dayStart now <;>
        by_cases hF : dayStart now < dayStart t <;>
          simp [hT, hF] <;> omega

/-- Witness for C6 at a record dated today 09:00, with a second record
differing in every other field. -/
theorem classification_trichotomy_witness :
    classify 1717977600000 todayRecA = Bucket.today ∧
      classify 1717977600000 todayRecB = classify 1717977600000 todayRecA :=
  ⟨((classification_trichotomy 1717977600000 todayRecA 1718010000000 rfl).1).mpr
      (by decide),
    (classification_trichotomy 1717977600000 todayRecA 1718010000000 rfl).2.2.2
      todayRecB rfl⟩

/-- C7: ranking is idempotent for a fixed current date, for every input,
parseable dates or not: the comparator is antisymmetric, so the sorted
output is chained under "need not come after" and re-sorting leaves it
unchanged. -/
theorem rank_idempotent (now : Int) (l : List FollowUp) :
    rank now (rank now l) = rank now l := by
  unfold rank
  exact insertionSort_eq_of_chained _ _
    (chained_insertionSort _ (fun a b => followUpCmp_total now a b) l)

/-- C8: every lead built by the CSV importer has `is_active = true`: the
source expression `values[8]?.toLowerCase() === 'active' || true` is a
tautology, so the Is Active column of the file is ignored. -/
theorem imported_lead_always_active (values : List String) (userId : Option String)
    (lead : ImportedLead) (h : parseCsvLead values userId = some lead) :
    lead.is_active = true := by
  unfold parseCsvLead at h
  split at h
  · rw [Option.some.injEq] at h
    subst h
    simp [Bool.or_true]
  · exact Option.noConfusion h

/-- Witness for C8: a row whose Is Active column says "inactive" still
imports with `is_active = true`. -/
theorem imported_lead_always_active_witness :
    parseCsvLead importRow (some ("u1")) = some importedJane ∧
      importedJane.is_active = true :=
  ⟨by decide,
    imported_lead_always_active importRow (some ("u1")) importedJane (by decide)⟩

/-- C9: the guard `new Date(form.follow_up_date) < new Date(getTodayDate())`
rejects any submitted date strictly before the current day — the state is
returned unchanged, with no insert and no update, and the past-date error
is reported — while a date on the current day passes the guard and the
update or insert proceeds. -/
theorem followUp_past_date_guard (now : Int) (uid : Nat) (editing : Option Nat)
    (form : FollowUpForm) (newId : Nat) (st : List FollowUpRow) (t : Int)
    (hd : form.follow_up_date = some t) :
    (dayStart t < dayStart now →
        addOrUpdateFollowUp now (some uid) editing form newId st =
          (st, SubmitOutcome.pastDateError)) ∧
      (dayStart t = dayStart now →
        (addOrUpdateFollowUp now (some uid) editing form newId st).2 =
          match editing with
          | some _ => SubmitOutcome.updated
          | none => SubmitOutcome.inserted) := by
  have hguard : jsDateLt form.follow_up_date (some (dayStart now)) =
      decide (t < dayStart now) := by
    rw [hd]
    rfl
  constructor
  · intro hlt
    have ht : t < dayStart now := (lt_dayStart_iff t now).mpr hlt
    unfold addOrUpdateFollowUp
    rw [hguard]
    simp [ht]
  · intro heq
    have hnt : ¬ t < dayStart now := by
      rw [lt_dayStart_iff]
      omega
    unfold addOrUpdateFollowUp
    rw [hguard]
    simp [hnt]
    cases editing <;> simp

/-- Witness for C9: submitting June 9 at noon of June 10 changes nothing
and reports the past-date error; submitting June 10 inserts. -/
theorem followUp_past_date_guard_witness :
    addOrUpdateFollowUp 1718020800000 (some 1) none pastForm 99 [] =
        ([], SubmitOutcome.pastDateError) ∧
      (addOrUpdateFollowUp 1718020800000 (some 1) none todayForm 99 []).2 =
        SubmitOutcome.inserted :=
  ⟨(followUp_past_date_guard 1718020800000 1 none pastForm 99 [] 1717891200000
        rfl).1 (by decide),
    (followUp_past_date_guard 1718020800000 1 none todayForm 99 [] 1717977600000
        rfl).2 (by decide)⟩

/-- C10: for every list of leads (and any rendering of
`toLocaleDateString`), the Excel export content is exactly the byte-order
mark U+FEFF prepended to the CSV export content: identical header line
and identical per-lead rows in the same order. -/
theorem exportExcel_eq_bom_exportCSV (fmtDate : Int → String) (leads : List Lead) :
    exportToExcelContent fmtDate leads =
      "\uFEFF" ++ exportToCSVContent fmtDate leads := rfl
